import Mathlib

/-!
Verification of the agent-interception proxy against its specification.

The Python sources are shallowly embedded: Python strings become lists of
characters (code points), parsed JSON values become the inductive type
below (numbers restricted to integers, which covers every value the
claims touch; monetary arithmetic uses exact rationals in place of IEEE
floats), dictionaries become association lists in insertion order, and
code that can raise returns an Option.  External library functions
(UTF-8 decoding, JSON serialisation, SHA-256) are taken as parameters of
the embedded definitions, since no claim depends on their internals.
-/

namespace AgentIntercept

/-- Python strings, modelled as their sequence of code points. -/
abbrev Str : Type := List Char

/-- Parsed JSON values (Python objects produced by the json module).
Dictionaries are association lists in insertion order with unique keys. -/
inductive Json where
  | null
  | bool (b : Bool)
  | num (n : Int)
  | str (s : Str)
  | arr (xs : List Json)
  | obj (kvs : List (Str × Json))

/-- Python truthiness of a parsed JSON value. -/
def pyTruthy : Json → Bool
  | Json.null => false
  | Json.bool b => b
  | Json.num n => decide (n ≠ 0)
  | Json.str s => decide (s ≠ [])
  | Json.arr xs => !xs.isEmpty
  | Json.obj kvs => !kvs.isEmpty

/-- Python len(), defined on strings, lists and dicts; TypeError otherwise. -/
def pyLen : Json → Option Nat
  | Json.str s => some s.length
  | Json.arr xs => some xs.length
  | Json.obj kvs => some kvs.length
  | _ => none

/-- dict lookup (d.get(k) with default None is modelled via Option). -/
def jlookup (kvs : List (Str × Json)) (k : Str) : Option Json :=
  (kvs.find? (fun p => decide (p.1 = k))).map (fun p => p.2)

/-- dict item assignment: replace the value in place when the key exists
(keys keep their insertion position), otherwise append at the end. -/
def dictSet (kvs : List (Str × Json)) (k : Str) (v : Json) : List (Str × Json) :=
  match kvs with
  | [] => [(k, v)]
  | p :: rest =>
    if p.1 = k then (k, v) :: rest else p :: dictSet rest k v

/-- Does a Json value equal a given Python string? -/
def jStrEq (j : Json) (s : Str) : Bool :=
  match j with
  | Json.str t => decide (t = s)
  | _ => false

/-- str.startswith. -/
def startsWithL : Str → Str → Bool
  | _, [] => true
  | [], _ :: _ => false
  | c :: s, d :: p => decide (c = d) && startsWithL s p

/-- str.lower restricted to ASCII letters (all header names the code
compares against are ASCII). -/
def toLowerL (s : Str) : Str :=
  s.map (fun c => if 'A' ≤ c ∧ c ≤ 'Z' then Char.ofNat (c.toNat + 32) else c)

/-- The whitespace characters removed by str.strip (ASCII subset). -/
def pyIsSpace (c : Char) : Bool :=
  decide (c = ' ') || decide (c = '\t') || decide (c = '\n') ||
  decide (c = '\r') || decide (c = '\x0b') || decide (c = '\x0c')

/-- str.strip. -/
def stripL (s : Str) : Str :=
  ((s.dropWhile pyIsSpace).reverse.dropWhile pyIsSpace).reverse

/-- Supported LLM providers (models.Provider). -/
inductive Provider where
  | openai
  | anthropic
  | ollama
  | unknown
deriving DecidableEq, Repr

/-- The configuration fields the registry consumes (config.InterceptorConfig,
restricted to the upstream base URLs). -/
structure InterceptorConfig where
  openai_base_url : Str
  anthropic_base_url : Str
  ollama_base_url : Str

/-- Result of provider detection: detected provider, the provider whose
singleton parser instance is returned, and the upstream base URL. -/
structure DetectResult where
  provider : Provider
  parserOf : Provider
  upstream : Str
deriving DecidableEq

def kV1Messages : Str := "/v1/messages".data

def kV1 : Str := "/v1/".data

def kApi : Str := "/api/".data

def kInterceptorPrefix : Str := "/_interceptor/".data

def kAnthropicVersion : Str := "anthropic-version".data

/-- Python: key in dict. -/
def hasKey (headers : List (Str × Str)) (k : Str) : Bool :=
  headers.any (fun kv => decide (kv.1 = k))

/-- ProviderRegistry.detect, translated clause for clause from
providers/registry.py. -/
def detect (cfg : InterceptorConfig) (path : Str) (headers : List (Str × Str)) :
    DetectResult :=
  if startsWithL path kV1Messages then
    ⟨Provider.anthropic, Provider.anthropic, cfg.anthropic_base_url⟩
  else if hasKey headers kAnthropicVersion && startsWithL path kV1 then
    ⟨Provider.anthropic, Provider.anthropic, cfg.anthropic_base_url⟩
  else if startsWithL path kApi then
    ⟨Provider.ollama, Provider.ollama, cfg.ollama_base_url⟩
  else if startsWithL path kV1 then
    ⟨Provider.openai, Provider.openai, cfg.openai_base_url⟩
  else if startsWithL path kInterceptorPrefix then
    ⟨Provider.unknown, Provider.openai, []⟩
  else
    ⟨Provider.ollama, Provider.ollama, cfg.ollama_base_url⟩

/-- Modelled from the spec: the ordered detection rule list exactly as the
claim states it (first match wins). -/
def detectRulesSpec (path : Str) (headers : List (Str × Str)) : Provider :=
  if startsWithL path kV1Messages then Provider.anthropic
  else if startsWithL path kV1 && hasKey headers kAnthropicVersion then Provider.anthropic
  else if startsWithL path kApi then Provider.ollama
  else if startsWithL path kV1 then Provider.openai
  else if startsWithL path kInterceptorPrefix then Provider.unknown
  else Provider.ollama

def kAuthorization : Str := "authorization".data

def kXApiKey : Str := "x-api-key".data

def kApiKey : Str := "api-key".data

def kOpenaiApiKey : Str := "openai-api-key".data

def kStars : Str := "***".data

/-- The sensitive header names of handler.redact_headers. -/
def sensitiveKeys : List Str := [kAuthorization, kXApiKey, kApiKey, kOpenaiApiKey]

/-- handler.redact_headers, translated from proxy/handler.py. -/
def redact_headers (headers : List (Str × Str)) (redact : Bool) : List (Str × Str) :=
  if !redact then headers
  else headers.map (fun kv =>
    if toLowerL kv.1 ∈ sensitiveKeys then
      if 12 < kv.2.length then (kv.1, kv.2.take 12 ++ kStars) else (kv.1, kStars)
    else kv)

/-- models.TokenUsage. -/
structure TokenUsage where
  input_tokens : Option Int
  output_tokens : Option Int
  cache_creation_tokens : Option Int
  cache_read_tokens : Option Int
  total_tokens : Option Int
deriving DecidableEq, Repr

/-- models.CostEstimate.  Costs are exact rationals in place of floats. -/
structure CostEstimate where
  input_cost : ℚ
  output_cost : ℚ
  total_cost : ℚ
  model : Option Str
  note : Option Str
deriving DecidableEq

/-- providers/openai.py OPENAI_PRICING, in insertion order
(USD per million tokens as exact rationals). -/
def OPENAI_PRICING : List (Str × ℚ × ℚ) :=
  [("gpt-4o".data, 5/2, 10),
   ("gpt-4o-mini".data, 3/20, 3/5),
   ("gpt-4-turbo".data, 10, 30),
   ("gpt-4".data, 30, 60),
   ("gpt-3.5-turbo".data, 1/2, 3/2),
   ("o1".data, 15, 60),
   ("o1-mini".data, 3, 12),
   ("o3-mini".data, 11/10, 22/5)]

/-- providers/anthropic.py ANTHROPIC_PRICING, in insertion order. -/
def ANTHROPIC_PRICING : List (Str × ℚ × ℚ) :=
  [("claude-opus-4".data, 15, 75),
   ("claude-sonnet-4".data, 3, 15),
   ("claude-3-5-sonnet".data, 3, 15),
   ("claude-3-5-haiku".data, 4/5, 4),
   ("claude-3-opus".data, 15, 75),
   ("claude-3-sonnet".data, 3, 15),
   ("claude-3-haiku".data, 1/4, 5/4)]

def kUnknownModelNote : Str := "Unknown model, no pricing available".data

def kOllamaNote : Str := "Local model (Ollama) - no API cost".data

/-- Exact dictionary lookup in a pricing table (dict.get(model)). -/
def priceExact (table : List (Str × ℚ × ℚ)) (m : Str) : Option (ℚ × ℚ) :=
  (table.find? (fun kv => decide (kv.1 = m))).map (fun kv => kv.2)

/-- First key in table insertion order that is a prefix of the model name
(the for-loop with break in estimate_cost). -/
def priceFirstPrefix (table : List (Str × ℚ × ℚ)) (m : Str) : Option (ℚ × ℚ) :=
  (table.find? (fun kv => startsWithL m kv.1)).map (fun kv => kv.2)

/-- Modelled from the spec: resolution by the LONGEST table key that is a
prefix of the model name, as the claim words it (for comparison with the
source definition, which takes the first match in insertion order). -/
def longestPrefixPricing (table : List (Str × ℚ × ℚ)) (m : Str) :
    Option (Str × ℚ × ℚ) :=
  table.foldl (fun acc kv =>
    if startsWithL m kv.1 then
      match acc with
      | none => some kv
      | some best => if best.1.length < kv.1.length then some kv else some best
    else acc) none

namespace OpenAIParser

/-- OpenAIParser.estimate_cost, translated from providers/openai.py.
A None model, an empty model string (Python falsy) or a None usage give
None; otherwise pricing is resolved by exact match, then by the first
prefix match in table order. -/
def estimate_cost (model : Option Str) (usage : Option TokenUsage) :
    Option CostEstimate :=
  match model, usage with
  | some m, some u =>
    if m.isEmpty then none
    else
      let pricing := match priceExact OPENAI_PRICING m with
        | some p => some p
        | none => priceFirstPrefix OPENAI_PRICING m
      match pricing with
      | none => some ⟨0, 0, 0, some m, some kUnknownModelNote⟩
      | some p =>
        let ic : ℚ := ((u.input_tokens.getD 0 : Int) : ℚ) / 1000000 * p.1
        let oc : ℚ := ((u.output_tokens.getD 0 : Int) : ℚ) / 1000000 * p.2
        some ⟨ic, oc, ic + oc, some m, none⟩
  | _, _ => none

end OpenAIParser

namespace AnthropicParser

/-- AnthropicParser.estimate_cost, translated from providers/anthropic.py.
Unlike the OpenAI parser there is no exact-match step: only the prefix
loop over the table. -/
def estimate_cost (model : Option Str) (usage : Option TokenUsage) :
    Option CostEstimate :=
  match model, usage with
  | some m, some u =>
    if m.isEmpty then none
    else
      match priceFirstPrefix ANTHROPIC_PRICING m with
      | none => some ⟨0, 0, 0, some m, some kUnknownModelNote⟩
      | some p =>
        let ic : ℚ := ((u.input_tokens.getD 0 : Int) : ℚ) / 1000000 * p.1
        let oc : ℚ := ((u.output_tokens.getD 0 : Int) : ℚ) / 1000000 * p.2
        some ⟨ic, oc, ic + oc, some m, none⟩
  | _, _ => none

end AnthropicParser

namespace OllamaParser

/-- OllamaParser.estimate_cost, translated from providers/ollama.py:
cost is always zero locally; usage is never inspected. -/
def estimate_cost (model : Option Str) (_usage : Option TokenUsage) :
    Option CostEstimate :=
  match model with
  | none => none
  | some m => if m.isEmpty then none else some ⟨0, 0, 0, some m, some kOllamaNote⟩

end OllamaParser

def kRole : Str := "role".data

def kContent : Str := "content".data

def kType : Str := "type".data

def kText : Str := "text".data

def kToolResult : Str := "tool_result".data

def kToolUse : Str := "tool_use".data

def kInput : Str := "input".data

def kUser : Str := "user".data

def kAssistant : Str := "assistant".data

def kTool : Str := "tool".data

mutual

/-- Executable structural size of a Json value, used as recursion fuel. -/
def jsize : Json → Nat
  | Json.null => 1
  | Json.bool _ => 1
  | Json.num _ => 1
  | Json.str _ => 1
  | Json.arr xs => 1 + jsizeArr xs
  | Json.obj kvs => 1 + jsizeObj kvs

/-- Size of a Json list. -/
def jsizeArr : List Json → Nat
  | [] => 1
  | j :: rest => 1 + jsize j + jsizeArr rest

/-- Size of a Json object field list. -/
def jsizeObj : List (Str × Json) → Nat
  | [] => 1
  | kv :: rest => 1 + jsize kv.2 + jsizeObj rest

end

/-- proxy/context.py _measure_content, fuel-indexed so that it is a plain
structural recursion (the fuel strictly exceeds the size of the value, so
the zero-fuel branch is never taken when called through measure_content).
The left summand is a content value, the right summand a block list being
iterated.  json.dumps is the parameter dumps.  A None result models a
Python TypeError (len of a non-sized value). -/
def measureFuel (dumps : Json → Str) : Nat → Json ⊕ List Json → Option Nat
  | 0, _ => none
  | fuel + 1, Sum.inl j =>
    match j with
    | Json.null => some 0
    | Json.str s => some s.length
    | Json.arr blocks => measureFuel dumps fuel (Sum.inr blocks)
    | _ => some 0
  | _ + 1, Sum.inr [] => some 0
  | fuel + 1, Sum.inr (b :: rest) =>
    let here : Option Nat :=
      match b with
      | Json.obj kvs =>
        let t := (jlookup kvs kType).getD Json.null
        if jStrEq t kText then pyLen ((jlookup kvs kText).getD (Json.str []))
        else if jStrEq t kToolResult || jStrEq t kToolUse then
          match measureFuel dumps fuel (Sum.inl ((jlookup kvs kContent).getD Json.null)) with
          | none => none
          | some n =>
            let inp := (jlookup kvs kInput).getD Json.null
            if pyTruthy inp then some (n + (dumps inp).length) else some n
        else some 0
      | _ => some 0
    match here, measureFuel dumps fuel (Sum.inr rest) with
    | some a, some c => some (a + c)
    | _, _ => none

/-- proxy/context.py _measure_content.  jsize j is always sufficient fuel:
every step of measureFuel strictly decreases the jsize of its argument,
so the zero-fuel branch is unreachable from here. -/
def measure_content (dumps : Json → Str) (j : Json) : Option Nat :=
  measureFuel dumps (jsize j) (Sum.inl j)

/-- models.ContextMetrics. -/
structure ContextMetrics where
  message_count : Nat
  user_turn_count : Nat
  assistant_turn_count : Nat
  tool_result_count : Nat
  context_depth_chars : Nat
  new_messages_this_turn : Option Int
  system_prompt_length : Nat
  system_prompt_hash : Option Str
deriving DecidableEq, Repr

/-- The per-message loop of compute_context_metrics, returning the
(user, assistant, tool-result, content-chars) accumulators.  A message
that is not a dictionary raises in Python (None here). -/
def ctxLoop (dumps : Json → Str) : List Json → Option (Nat × Nat × Nat × Nat)
  | [] => some (0, 0, 0, 0)
  | msg :: rest =>
    match msg with
    | Json.obj kvs =>
      let role := (jlookup kvs kRole).getD (Json.str [])
      let du : Nat := if jStrEq role kUser then 1 else 0
      let da : Nat := if !jStrEq role kUser && jStrEq role kAssistant then 1 else 0
      let dt : Nat := if !jStrEq role kUser && !jStrEq role kAssistant &&
          (jStrEq role kTool || jStrEq role kToolResult) then 1 else 0
      match measure_content dumps ((jlookup kvs kContent).getD Json.null) with
      | none => none
      | some chars =>
        match ctxLoop dumps rest with
        | none => none
        | some (u, a, t, c) => some (u + du, a + da, t + dt, c + chars)
    | _ => none

/-- proxy/context.py compute_context_metrics.  dumps models json.dumps and
sha models the hex SHA-256 digest; both are parameters since no claim
depends on their internals. -/
def compute_context_metrics (dumps : Json → Str) (sha : Str → Str)
    (messages : Option (List Json)) (system_prompt : Option Str)
    (prev_message_count : Option Int) : Option ContextMetrics :=
  let msgs := messages.getD []
  match ctxLoop dumps msgs with
  | none => none
  | some (u, a, t, chars) =>
    let sysp := (system_prompt.getD []).length
    let syspStr := system_prompt.getD []
    let depth := chars + sysp
    let hash := if syspStr.isEmpty then none else some ((sha syspStr).take 16)
    let delta := prev_message_count.map (fun p => (msgs.length : Int) - p)
    some ⟨msgs.length, u, a, t, depth, delta, sysp, hash⟩

/-- Result of ProviderParser.parse_stream_chunk (only the two fields the
interceptor reads). -/
structure ParseOut where
  parsed : Option Json
  delta_text : Option Str

/-- models.StreamChunk (receipt timestamps are real time and not
modelled). -/
structure StreamChunk where
  index : Nat
  data : Str
  parsed : Option Json
  delta_text : Option Str

/-- Mutable state of a StreamInterceptor: the line buffer, the recorded
chunks, and the running chunk index. -/
structure IState where
  buffer : Str
  chunks : List StreamChunk
  chunkIndex : Nat

def kDataPrefix : Str := "data:".data

/-- StreamInterceptor._parse_sse_line, from proxy/streaming.py. -/
def parse_sse_line (parse : Str → ParseOut) (st : IState) (line : Str) : IState :=
  if !startsWithL line kDataPrefix then st
  else
    let dat := stripL (line.drop 5)
    if dat.isEmpty then st
    else
      let pr := parse dat
      ⟨st.buffer, st.chunks ++ [⟨st.chunkIndex, line, pr.parsed, pr.delta_text⟩],
        st.chunkIndex + 1⟩

/-- StreamInterceptor._parse_ndjson_line, from proxy/streaming.py. -/
def parse_ndjson_line (parse : Str → ParseOut) (st : IState) (line : Str) : IState :=
  let pr := parse line
  ⟨st.buffer, st.chunks ++ [⟨st.chunkIndex, line, pr.parsed, pr.delta_text⟩],
    st.chunkIndex + 1⟩

/-- Does the buffer contain a newline (the while-loop guard)? -/
def hasNl (s : Str) : Bool := s.any (fun c => decide (c = '\n'))

def notNl (c : Char) : Bool := decide (c ≠ '\n')

/-- The while-loop of StreamInterceptor.intercept that repeatedly splits
the buffer at the first newline and parses each stripped non-empty line.
Fuel-indexed structural recursion; every iteration strictly shrinks the
buffer, so buffer length is sufficient fuel. -/
def processBufferFuel (nd : Bool) (parse : Str → ParseOut) : Nat → IState → IState
  | 0, st => st
  | fuel + 1, st =>
    if hasNl st.buffer then
      let line := st.buffer.takeWhile notNl
      let rest := (st.buffer.dropWhile notNl).tail
      let stripped := stripL line
      let st1 : IState := ⟨rest, st.chunks, st.chunkIndex⟩
      let st2 := if stripped.isEmpty then st1
        else if nd then parse_ndjson_line parse st1 stripped
        else parse_sse_line parse st1 stripped
      processBufferFuel nd parse fuel st2
    else st

/-- One iteration of the async-for loop of intercept: yield the raw block
unchanged, append its decoding to the buffer, then drain complete
lines. -/
def interceptStep (decode : List Nat → Str) (nd : Bool) (parse : Str → ParseOut)
    (acc : List (List Nat) × IState) (blk : List Nat) : List (List Nat) × IState :=
  let st := acc.2
  let st1 : IState := ⟨st.buffer ++ decode blk, st.chunks, st.chunkIndex⟩
  (acc.1 ++ [blk], processBufferFuel nd parse st1.buffer.length st1)

/-- StreamInterceptor.intercept, from proxy/streaming.py.  Blocks are raw
byte blocks; decode models bytes.decode(utf-8, errors=replace).  Returns
the blocks yielded downstream (in order) and the final interceptor
state. -/
def intercept (decode : List Nat → Str) (nd : Bool) (parse : Str → ParseOut)
    (blocks : List (List Nat)) : List (List Nat) × IState :=
  blocks.foldl (interceptStep decode nd parse) ([], ⟨[], [], 0⟩)

def kStream : Str := "stream".data

def kStreamOptions : Str := "stream_options".data

def kIncludeUsage : Str := "include_usage".data

/-- should_inject_stream_options, from proxy/streaming.py.  None models a
Python AttributeError (stream_options present but not a dictionary). -/
def should_inject_stream_options (body : List (Str × Json)) (provider : Provider) :
    Option Bool :=
  if provider ≠ Provider.openai then some false
  else if !pyTruthy ((jlookup body kStream).getD Json.null) then some false
  else
    match jlookup body kStreamOptions with
    | none => some true
    | some (Json.obj so) =>
      some (!pyTruthy ((jlookup so kIncludeUsage).getD (Json.bool false)))
    | some _ => none

/-- Stated from the claim: the stream_options part of the injection
condition -- either the body has no stream_options, or it is an object
whose include_usage is not already truthy (a non-object value raises
before the decision is made). -/
def injectionConditionSpec (body : List (Str × Json)) : Prop :=
  match jlookup body kStreamOptions with
  | none => True
  | some (Json.obj so) =>
    pyTruthy ((jlookup so kIncludeUsage).getD (Json.bool false)) = false
  | some _ => False

/-- inject_stream_options, from proxy/streaming.py.  The Python function
copies the body SHALLOWLY (body.copy()) and then mutates the nested
stream_options dictionary in place.  The embedding makes the heap effect
explicit by returning the pair (forwarded body, original body after the
call): when the original body has no stream_options key the nested
dictionary is fresh and the original is untouched; when it has one, the
nested dictionary is shared, so the original body observes the mutation
too.  None models a TypeError (stream_options present but not a
dictionary). -/
def inject_stream_options (body : List (Str × Json)) :
    Option (List (Str × Json) × List (Str × Json)) :=
  match jlookup body kStreamOptions with
  | none =>
    some (dictSet body kStreamOptions (Json.obj [(kIncludeUsage, Json.bool true)]), body)
  | some (Json.obj so) =>
    let so2 := dictSet so kIncludeUsage (Json.bool true)
    some (dictSet body kStreamOptions (Json.obj so2),
          dictSet body kStreamOptions (Json.obj so2))
  | some _ => none

/-- models.Interaction, restricted to the fields the claims touch.
Timestamps are arrival ticks (storage only ever orders by them) and
latencies exact rationals. -/
structure Interaction where
  id : Str
  session_id : Option Str
  timestamp : Nat
  status_code : Option Nat
  error : Option Str
  total_latency_ms : Option ℚ
  conversation_id : Option Str
  parent_interaction_id : Option Str
  turn_number : Option Nat
  turn_type : Option Str
  tool_calls : Option (List Json)
  messages : Option (List Json)
  response_text : Option Str
  context_metrics : Option ContextMetrics

def kConnErrPrefix : Str := "Connection error: ".data

def kTimeoutPrefix : Str := "Timeout: ".data

def kError : Str := "error".data

/-- Outcome of reading the upstream body after a successful send
(the non-streaming branch of ProxyHandler.handle). -/
inductive ReadOutcome where
  | success (raw : Str)
  | readTimeout (msg : Str)

/-- Outcome of the upstream send inside ProxyHandler.handle: the
connection attempt may fail or time out before any response; once the
send succeeds the status code is known and the body read may itself time
out (httpx raises TimeoutException from aread, caught by the same except
clause). -/
inductive UpstreamOutcome where
  | connectError (msg : Str)
  | sendTimeout (msg : Str)
  | ok (status : Nat) (read : ReadOutcome)

/-- Response the handler hands back to the client.  errorBody is the JSON
dictionary serialised into a 502/504 response; none means the upstream
payload is passed through (its content is irrelevant to the claims). -/
structure HandlerResponse where
  status : Nat
  errorBody : Option (List (Str × Json))

/-- The try/except skeleton of ProxyHandler.handle (proxy/handler.py,
upstream forwarding onward), for an interaction i0 as built before the
try block (so with status_code still None).  Returns the interaction as
finalized and the client response.  Success-path parsing, reassembly and
header filtering are independent of the error-handling claims and are
not modelled. -/
def handle_upstream (i0 : Interaction) (elapsed_ms : ℚ) (o : UpstreamOutcome) :
    Interaction × HandlerResponse :=
  match o with
  | UpstreamOutcome.connectError msg =>
    ({ i0 with error := some (kConnErrPrefix ++ msg),
               total_latency_ms := some elapsed_ms },
     ⟨502, some [(kError, Json.str msg)]⟩)
  | UpstreamOutcome.sendTimeout msg =>
    ({ i0 with error := some (kTimeoutPrefix ++ msg),
               total_latency_ms := some elapsed_ms },
     ⟨504, some [(kError, Json.str msg)]⟩)
  | UpstreamOutcome.ok status read =>
    match read with
    | ReadOutcome.success _ =>
      ({ i0 with status_code := some status,
                 total_latency_ms := some elapsed_ms },
       ⟨status, none⟩)
    | ReadOutcome.readTimeout msg =>
      ({ i0 with status_code := some status,
                 error := some (kTimeoutPrefix ++ msg),
                 total_latency_ms := some elapsed_ms },
       ⟨504, some [(kError, Json.str msg)]⟩)

def kHandoff : Str := "handoff".data

def kContinuation : Str := "continuation".data

def kInitial : Str := "initial".data

/-- ORDER BY COALESCE(turn_number, 0) ASC, timestamp ASC. -/
def leConvOrder (a b : Interaction) : Bool :=
  decide (a.turn_number.getD 0 < b.turn_number.getD 0) ||
  (decide (a.turn_number.getD 0 = b.turn_number.getD 0) &&
    decide (a.timestamp ≤ b.timestamp))

/-- ORDER BY timestamp DESC. -/
def leTsDesc (a b : Interaction) : Bool := decide (b.timestamp ≤ a.timestamp)

/-- Insertion into a sorted list (SQL ordering model). -/
def insertSorted (le : Interaction → Interaction → Bool) (x : Interaction) :
    List Interaction → List Interaction
  | [] => [x]
  | y :: rest => if le x y then x :: y :: rest else y :: insertSorted le x rest

/-- Insertion sort (SQL ordering model; SQLite guarantees no stability,
and no claim depends on tie order). -/
def sortByL (le : Interaction → Interaction → Bool) :
    List Interaction → List Interaction
  | [] => []
  | x :: rest => insertSorted le x (sortByL le rest)

/-- InteractionStore.get_conversation: all rows with the conversation id,
ordered by (coalesced turn_number, timestamp). -/
def get_conversation (store : List Interaction) (cid : Str) : List Interaction :=
  sortByL leConvOrder (store.filter (fun i => decide (i.conversation_id = some cid)))

/-- InteractionStore.get_recent_in_session: rows of the session, newest
first, limited. -/
def get_recent_in_session (store : List Interaction) (sid : Str) (limit : Nat) :
    List Interaction :=
  (sortByL leTsDesc (store.filter (fun i => decide (i.session_id = some sid)))).take limit

/-- InteractionStore.list_interactions with no filters: all rows, newest
first, limited. -/
def list_interactions (store : List Interaction) (limit : Nat) : List Interaction :=
  (sortByL leTsDesc store).take limit

/-- Is a content block a tool_result block? -/
def blockIsToolResult (b : Json) : Bool :=
  match b with
  | Json.obj kvs => jStrEq ((jlookup kvs kType).getD Json.null) kToolResult
  | _ => false

/-- InteractionStore._has_tool_results, from storage/store.py.  (Messages
that are not dictionaries contribute nothing; the claims never depend on
this predicate's value.) -/
def has_tool_results (i : Interaction) : Bool :=
  match i.messages with
  | none => false
  | some msgs =>
    if msgs.isEmpty then false
    else msgs.any (fun msg =>
      match msg with
      | Json.obj kvs =>
        let role := (jlookup kvs kRole).getD Json.null
        if jStrEq role kTool || jStrEq role kToolResult then true
        else match jlookup kvs kContent with
          | some (Json.arr blocks) => blocks.any blockIsToolResult
          | _ => false
      | _ => false)

/-- Python truthiness of interaction.tool_calls (None or empty list is
falsy). -/
def truthyToolCalls (i : Interaction) : Bool :=
  match i.tool_calls with
  | some (_ :: _) => true
  | _ => false

/-- Substring containment (Python: needle in haystack). -/
def isSubL (needle hay : Str) : Bool :=
  startsWithL hay needle ||
    match hay with
    | [] => false
    | _ :: rest => isSubL needle rest

/-- Text of an assistant message as _is_continuation accumulates it:
a plain string content, or the concatenated text fields of the
type=text blocks of a block list. -/
def assistantText (kvs : List (Str × Json)) : Str :=
  match jlookup kvs kContent with
  | some (Json.str s) => s
  | some (Json.arr blocks) =>
    blocks.foldl (fun acc b =>
      match b with
      | Json.obj bk =>
        if jStrEq ((jlookup bk kType).getD Json.null) kText then
          acc ++ (match (jlookup bk kText).getD (Json.str []) with
            | Json.str t => t
            | _ => [])
        else acc
      | _ => acc) []
  | _ => []

/-- InteractionStore._is_continuation, from storage/store.py. -/
def is_continuation (cur prev : Interaction) : Bool :=
  match cur.messages with
  | none => false
  | some msgs =>
    if msgs.isEmpty then false
    else
      let sig1 :=
        match prev.response_text with
        | some rt =>
          if rt.isEmpty then false
          else
            let check := rt.take 100
            msgs.any (fun msg =>
              match msg with
              | Json.obj kvs =>
                jStrEq ((jlookup kvs kRole).getD Json.null) kAssistant &&
                  (!check.isEmpty && isSubL check (assistantText kvs))
              | _ => false)
        | none => false
      sig1 || (truthyToolCalls prev && has_tool_results cur)

/-- InteractionStore._update_new_messages_delta, from storage/store.py. -/
def update_new_messages_delta (i prev : Interaction) : Interaction :=
  match i.context_metrics, prev.context_metrics with
  | some cm, some pm =>
    match cm.new_messages_this_turn with
    | none =>
      let d : Option Int := some ((cm.message_count : Int) - (pm.message_count : Int))
      let cm2 := { cm with new_messages_this_turn := d }
      { i with context_metrics := some cm2 }
    | some _ => i
  | _, _ => i

/-- Python: (prev.turn_number or 1), i.e. 1 when None or 0. -/
def pyOrOne (o : Option Nat) : Nat :=
  match o with
  | some n => if n = 0 then 1 else n
  | none => 1

/-- Python: (prev.conversation_id or fresh-uuid), i.e. fresh when None or
empty. -/
def pyOrFresh (o : Option Str) (fresh : Str) : Str :=
  match o with
  | some s => if s.isEmpty then fresh else s
  | none => fresh

/-- The inherit-and-link step shared by the session and global fallback
paths of _resolve_threading. -/
def linkToPrev (fresh : Str) (i prev : Interaction) : Interaction :=
  update_new_messages_delta
    { i with conversation_id := some (pyOrFresh prev.conversation_id fresh),
             parent_interaction_id := some prev.id,
             turn_number := some (pyOrOne prev.turn_number + 1),
             turn_type := some (if truthyToolCalls prev && has_tool_results i
               then kToolResult else kContinuation) } prev

/-- The fresh-thread step of _resolve_threading. -/
def freshThread (fresh : Str) (i : Interaction) : Interaction :=
  { i with conversation_id := some fresh, turn_number := some 1,
           turn_type := some kInitial }

/-- The global fallback path of _resolve_threading (no session, no
explicit conversation): scan the 10 most recent rows for a continuation
match. -/
def globalFallback (store : List Interaction) (fresh : Str) (i : Interaction) :
    Interaction :=
  match (list_interactions store 10).find? (fun prev => is_continuation i prev) with
  | some prev => linkToPrev fresh i prev
  | none => freshThread fresh i

/-- InteractionStore._resolve_threading, from storage/store.py.  fresh
models the str(uuid.uuid4()) the Python code mints (at most one per
call is ever used). -/
def resolve_threading (store : List Interaction) (fresh : Str) (i : Interaction) :
    Interaction :=
  match i.conversation_id with
  | some cid =>
    match (get_conversation store cid).getLast? with
    | some prev =>
      update_new_messages_delta
        { i with parent_interaction_id := some prev.id,
                 turn_number := some (pyOrOne prev.turn_number + 1),
                 turn_type := some (if prev.session_id ≠ i.session_id then kHandoff
                   else if truthyToolCalls prev && has_tool_results i then kToolResult
                   else kContinuation) } prev
    | none => { i with turn_number := some 1, turn_type := some kInitial }
  | none =>
    match i.session_id with
    | some sid =>
      if sid.isEmpty then globalFallback store fresh i
      else
        match (get_recent_in_session store sid 1).head? with
        | some prev =>
          if is_continuation i prev then linkToPrev fresh i prev
          else freshThread fresh i
        | none => freshThread fresh i
    | none => globalFallback store fresh i

/-- INSERT OR REPLACE keyed by interaction id. -/
def upsert (i : Interaction) (store : List Interaction) : List Interaction :=
  i :: store.filter (fun j => !decide (j.id = i.id))

/-- InteractionStore.save: run the threading engine, then upsert. -/
def save (store : List Interaction) (fresh : Str) (i : Interaction) :
    List Interaction :=
  upsert (resolve_threading store fresh i) store

/-- Threading well-formedness of one row against a store: the row has a
non-empty conversation id, a positive turn number, and if it links to a
parent then the parent is a row of the store sharing its conversation
id whose turn number is exactly one less. -/
def WFOne (store : List Interaction) (j : Interaction) : Prop :=
  (∃ c, j.conversation_id = some c ∧ c ≠ []) ∧
  (∃ n, j.turn_number = some n ∧ 1 ≤ n) ∧
  (∀ pid, j.parent_interaction_id = some pid →
    ∃ p ∈ store, p.id = pid ∧ p.conversation_id = j.conversation_id ∧
      ∃ m, p.turn_number = some m ∧ j.turn_number = some (m + 1))

/-- Threading well-formedness of a store: every row is well formed. -/
def WFStore (store : List Interaction) : Prop :=
  ∀ i ∈ store, WFOne store i

/-! Concrete inputs used by witnesses and counterexamples. -/

/-- Identity byte decoding over code points (an ASCII stream). -/
def decode0 (bs : List Nat) : Str := bs.map Char.ofNat

/-- Inverse encoding used to build concrete byte blocks. -/
def enc (s : Str) : List Nat := s.map Char.toNat

/-- A chunk parser that extracts nothing (its output never matters to the
byte-fidelity and trailing-line claims). -/
def parse0 (_ : Str) : ParseOut := ⟨none, none⟩

def wLine1 : Str := "first line\n".data

/-- A one-block stream ending in a newline. -/
def wBlocks : List (List Nat) := [enc wLine1]

def wTailText : Str := "done line without newline".data

def cMdl : Str := "gpt-4o-mini-high".data

def cMdlUnknown : Str := "mystery-model".data

def cUsage : TokenUsage := ⟨some 1000000, some 0, none, none, none⟩

def cOllamaModel : Str := "llama3".data

/-- A body whose stream field is truthy but not the boolean true. -/
def cBodyStreamNum : List (Str × Json) := [(kStream, Json.num 1)]

/-- A body that already carries an (empty) stream_options object. -/
def cBodyShared : List (Str × Json) :=
  [(kStream, Json.bool true), (kStreamOptions, Json.obj [])]

/-- cBodyShared as it is observed after inject_stream_options has mutated
the shared nested dictionary. -/
def cBodySharedAfter : List (Str × Json) :=
  [(kStream, Json.bool true), (kStreamOptions, Json.obj [(kIncludeUsage, Json.bool true)])]

def cBodyPlain : List (Str × Json) := [(kStream, Json.bool true)]

def cReadMsg : Str := "read timed out".data

def cConnMsg : Str := "connection refused".data

/-- A freshly received interaction, as the handler builds it before the
upstream send (status, error, latency and threading fields unset). -/
def wInteraction : Interaction :=
  ⟨"id-1".data, none, 0, none, none, none, none, none, none, none, none, none, none, none⟩

def wFresh : Str := "conv-fresh".data

def wMsgs : Option (List Json) :=
  some [Json.obj [(kRole, Json.str kUser), (kContent, Json.str ("hi".data))]]

def wSys : Str := "sys".data

/-- The metrics compute_context_metrics yields on wMsgs and wSys. -/
def wMetrics : ContextMetrics := ⟨1, 1, 0, 0, 5, none, 3, some []⟩

def wAuthKey : Str := "Authorization".data

def wSecret : Str := "sk-abcdef0123456789".data

/-! Helper lemmas. -/

theorem mem_of_getLast?_eq (l : List Interaction) (x : Interaction)
    (h : l.getLast? = some x) : x ∈ l := by
  induction l with
  | nil => simp [List.getLast?] at h
  | cons a rest ih =>
    cases rest with
    | nil =>
      simp [List.getLast?] at h
      simp [h]
    | cons b r2 =>
      rw [List.getLast?_cons_cons] at h
      exact List.mem_cons_of_mem a (ih h)

theorem mem_of_head?_eq (l : List Interaction) (x : Interaction)
    (h : l.head? = some x) : x ∈ l := by
  cases l with
  | nil => simp at h
  | cons a rest =>
    simp only [List.head?_cons, Option.some.injEq] at h
    rw [← h]
    exact List.mem_cons_self a rest

theorem mem_insertSorted (le : Interaction → Interaction → Bool) (a x : Interaction) :
    ∀ l : List Interaction, x ∈ insertSorted le a l ↔ x = a ∨ x ∈ l := by
  intro l
  induction l with
  | nil => simp [insertSorted]
  | cons y rest ih =>
    by_cases h : le a y = true
    · simp [insertSorted, h]
    · simp only [insertSorted, h]
      simp [List.mem_cons, ih]
      tauto

theorem mem_sortByL (le : Interaction → Interaction → Bool) (x : Interaction) :
    ∀ l : List Interaction, x ∈ sortByL le l ↔ x ∈ l := by
  intro l
  induction l with
  | nil => simp [sortByL]
  | cons y rest ih =>
    simp [sortByL, mem_insertSorted, ih]

theorem foldl_interceptStep_fst (decode : List Nat → Str) (nd : Bool)
    (parse : Str → ParseOut) :
    ∀ (blocks : List (List Nat)) (acc : List (List Nat) × IState),
      (blocks.foldl (interceptStep decode nd parse) acc).1 = acc.1 ++ blocks := by
  intro blocks
  induction blocks with
  | nil => intro acc; simp
  | cons b rest ih =>
    intro acc
    rw [List.foldl_cons, ih]
    simp [interceptStep]

theorem hasNl_append (a b : Str) : hasNl (a ++ b) = (hasNl a || hasNl b) := by
  simp [hasNl, List.any_append]

theorem parse_sse_line_buffer (parse : Str → ParseOut) (st : IState) (line : Str) :
    (parse_sse_line parse st line).buffer = st.buffer := by
  unfold parse_sse_line
  split
  · rfl
  · dsimp only
    split <;> rfl

theorem parse_ndjson_line_buffer (parse : Str → ParseOut) (st : IState) (line : Str) :
    (parse_ndjson_line parse st line).buffer = st.buffer := rfl

theorem dropWhile_ne_nil_of_hasNl (s : Str) (h : hasNl s = true) :
    s.dropWhile notNl ≠ [] := by
  simp only [hasNl, List.any_eq_true] at h
  obtain ⟨c, hc, hcnl⟩ := h
  have hcn : c = '\n' := of_decide_eq_true hcnl
  intro hnil
  have := List.dropWhile_eq_nil_iff.mp hnil c hc
  rw [hcn] at this
  simp [notNl] at this

theorem rest_length_lt (s : Str) (h : hasNl s = true) :
    ((s.dropWhile notNl).tail).length < s.length := by
  have hne := dropWhile_ne_nil_of_hasNl s h
  have hle : (s.dropWhile notNl).length ≤ s.length :=
    List.Sublist.length_le (List.dropWhile_sublist notNl)
  have hpos : 0 < (s.dropWhile notNl).length := List.length_pos.mpr hne
  rw [List.length_tail]
  omega

theorem processBufferFuel_stable (nd : Bool) (parse : Str → ParseOut)
    (fuel : Nat) (st : IState) (h : hasNl st.buffer = false) :
    processBufferFuel nd parse fuel st = st := by
  cases fuel <;> simp [processBufferFuel, h]

theorem processBufferFuel_no_nl (nd : Bool) (parse : Str → ParseOut) :
    ∀ (fuel : Nat) (st : IState), st.buffer.length ≤ fuel →
      hasNl (processBufferFuel nd parse fuel st).buffer = false := by
  intro fuel
  induction fuel with
  | zero =>
    intro st h
    have hb : st.buffer = [] := List.eq_nil_of_length_eq_zero (Nat.le_zero.mp h)
    simp [processBufferFuel, hasNl, hb]
  | succ n ih =>
    intro st h
    by_cases hnl : hasNl st.buffer = true
    · rw [processBufferFuel]
      simp only [hnl, if_true]
      apply ih
      have hlt := rest_length_lt st.buffer hnl
      have hbuf : ∀ stripped,
          (if (stripL stripped : Str).isEmpty = true then
            (⟨(st.buffer.dropWhile notNl).tail, st.chunks, st.chunkIndex⟩ : IState)
          else if nd then
            parse_ndjson_line parse ⟨(st.buffer.dropWhile notNl).tail, st.chunks, st.chunkIndex⟩
              (stripL stripped)
          else
            parse_sse_line parse ⟨(st.buffer.dropWhile notNl).tail, st.chunks, st.chunkIndex⟩
              (stripL stripped)).buffer = (st.buffer.dropWhile notNl).tail := by
        intro stripped
        split
        · rfl
        · split
          · rw [parse_ndjson_line_buffer]
          · rw [parse_sse_line_buffer]
      rw [hbuf (st.buffer.takeWhile notNl)]
      omega
    · have hf : hasNl st.buffer = false := eq_false_of_ne_true hnl
      rw [processBufferFuel_stable nd parse (n + 1) st hf]
      exact hf

theorem interceptStep_chunks_no_nl (decode : List Nat → Str) (nd : Bool)
    (parse : Str → ParseOut) (acc : List (List Nat) × IState) (t : List Nat)
    (h1 : hasNl acc.2.buffer = false) (h2 : hasNl (decode t) = false) :
    (interceptStep decode nd parse acc t).2.chunks = acc.2.chunks := by
  have hc : hasNl (acc.2.buffer ++ decode t) = false := by
    rw [hasNl_append, h1, h2]
    rfl
  unfold interceptStep
  dsimp only
  rw [processBufferFuel_stable nd parse (acc.2.buffer ++ decode t).length
    ⟨acc.2.buffer ++ decode t, acc.2.chunks, acc.2.chunkIndex⟩ hc]

theorem intercept_buffer_no_nl (decode : List Nat → Str) (nd : Bool)
    (parse : Str → ParseOut) :
    ∀ (blocks : List (List Nat)) (acc : List (List Nat) × IState),
      (blocks.foldl (interceptStep decode nd parse) acc).2.buffer = acc.2.buffer ∨
      hasNl (blocks.foldl (interceptStep decode nd parse) acc).2.buffer = false := by
  intro blocks
  induction blocks with
  | nil => intro acc; left; rfl
  | cons b rest ih =>
    intro acc
    rw [List.foldl_cons]
    rcases ih (interceptStep decode nd parse acc b) with hsame | hok
    · right
      rw [hsame]
      exact processBufferFuel_no_nl nd parse _ _ (Nat.le_refl _)
    · right; exact hok

/-! Claim theorems. -/

/-- C1: for every input byte stream consumed by StreamInterceptor.intercept,
the concatenation of the byte blocks yielded downstream equals the
concatenation of the byte blocks received from upstream, in the same
order, whatever the line splitting and chunk parsing do (they are
universally quantified here). -/
theorem intercept_byte_fidelity (decode : List Nat → Str) (nd : Bool)
    (parse : Str → ParseOut) (blocks : List (List Nat)) :
    ((intercept decode nd parse blocks).1).flatten = blocks.flatten := by
  unfold intercept
  rw [foldl_interceptStep_fst]
  simp

/-- C4: provider detection returns the provider of the first matching rule
of the ordered rule list the claim states (v1/messages to Anthropic,
anthropic-version header on v1 to Anthropic, api to Ollama, other v1 to
OpenAI, interceptor prefix to unknown, everything else to Ollama). -/
theorem detect_matches_rule_list (cfg : InterceptorConfig) (path : Str)
    (headers : List (Str × Str)) :
    (detect cfg path headers).provider = detectRulesSpec path headers := by
  unfold detect detectRulesSpec
  cases h1 : startsWithL path kV1Messages <;>
    cases h2 : hasKey headers kAnthropicVersion <;>
      cases h3 : startsWithL path kApi <;>
        cases h4 : startsWithL path kV1 <;>
          cases h5 : startsWithL path kInterceptorPrefix <;>
            simp [h1, h2, h3, h4, h5]

/-- C10: estimate_cost of all three parsers is None for a None model; the
OpenAI and Anthropic parsers are also None for a None usage; the Ollama
parser returns the zero-cost estimate with its local-model note for
every non-empty model, whatever the usage. -/
theorem estimate_cost_null_behaviour :
    (∀ u, OpenAIParser.estimate_cost none u = none) ∧
    (∀ u, AnthropicParser.estimate_cost none u = none) ∧
    (∀ u, OllamaParser.estimate_cost none u = none) ∧
    (∀ m, OpenAIParser.estimate_cost m none = none) ∧
    (∀ m, AnthropicParser.estimate_cost m none = none) ∧
    (∀ m u, m ≠ [] → OllamaParser.estimate_cost (some m) u =
      some ⟨0, 0, 0, some m, some kOllamaNote⟩) := by
  refine ⟨fun u => rfl, fun u => rfl, fun u => rfl, ?_, ?_, ?_⟩
  · intro m; cases m <;> rfl
  · intro m; cases m <;> rfl
  · intro m u hm
    cases m with
    | nil => exact absurd rfl hm
    | cons c cs => rfl

/-- C10 witness: the Ollama parser yields the zero-cost estimate for a
concrete model even with a None usage. -/
theorem estimate_cost_null_behaviour_witness :
    OllamaParser.estimate_cost (some cOllamaModel) none =
      some ⟨0, 0, 0, some cOllamaModel, some kOllamaNote⟩ :=
  estimate_cost_null_behaviour.2.2.2.2.2 cOllamaModel none (by decide)

/-- C10 counterexample: the claim promises a non-null zero-cost estimate
for EVERY non-null model, but the empty model string (Python falsy)
makes the Ollama parser return None. -/
theorem estimate_cost_ollama_empty_model_cex :
    OllamaParser.estimate_cost (some []) none = none := rfl

/-- C9: the stream interceptor records chunks only out of
newline-terminated lines: appending a trailing block with no newline
leaves the recorded chunk list exactly as it was without that block,
while the trailing bytes are still forwarded to the client. -/
theorem trailing_partial_line_not_recorded (decode : List Nat → Str) (nd : Bool)
    (parse : Str → ParseOut) (blocks : List (List Nat)) (t : List Nat)
    (h : hasNl (decode t) = false) :
    (intercept decode nd parse (blocks ++ [t])).2.chunks =
      (intercept decode nd parse blocks).2.chunks ∧
    ((intercept decode nd parse (blocks ++ [t])).1).flatten = blocks.flatten ++ t := by
  constructor
  · show (List.foldl (interceptStep decode nd parse)
        (([], ⟨[], [], 0⟩) : List (List Nat) × IState) (blocks ++ [t])).2.chunks = _
    rw [List.foldl_append]
    simp only [List.foldl_cons, List.foldl_nil]
    have hnb : hasNl (List.foldl (interceptStep decode nd parse)
        (([], ⟨[], [], 0⟩) : List (List Nat) × IState) blocks).2.buffer = false := by
      rcases intercept_buffer_no_nl decode nd parse blocks
          (([], ⟨[], [], 0⟩) : List (List Nat) × IState) with hs | hok
      · rw [hs]; rfl
      · exact hok
    exact interceptStep_chunks_no_nl decode nd parse _ t hnb h
  · rw [show (intercept decode nd parse (blocks ++ [t])).1 = [] ++ (blocks ++ [t]) from
      foldl_interceptStep_fst decode nd parse (blocks ++ [t]) _]
    simp

/-- C9 witness: a concrete NDJSON stream whose final block carries no
newline; its chunk list equals that of the stream without the final
block, and the concatenated forwarded bytes still include it. -/
theorem trailing_partial_line_not_recorded_witness :
    (intercept decode0 true parse0 (wBlocks ++ [enc wTailText])).2.chunks =
      (intercept decode0 true parse0 wBlocks).2.chunks ∧
    ((intercept decode0 true parse0 (wBlocks ++ [enc wTailText])).1).flatten =
      wBlocks.flatten ++ enc wTailText :=
  trailing_partial_line_not_recorded decode0 true parse0 wBlocks (enc wTailText)
    (by decide)

/-- C7: with redaction enabled, a header whose lowercased name is one of
the four sensitive names has its value replaced by its first 12
characters followed by three stars (just three stars when the value has
at most 12 characters), and every other header is returned unchanged in
place. -/
theorem redact_headers_pointwise (headers : List (Str × Str)) (i : Nat) (k v : Str)
    (h : headers.get? i = some (k, v)) :
    (redact_headers headers true).get? i =
      some (if toLowerL k ∈ [kAuthorization, kXApiKey, kApiKey, kOpenaiApiKey] then
          (if 12 < v.length then (k, v.take 12 ++ kStars) else (k, kStars))
        else (k, v)) := by
  unfold redact_headers
  simp only [Bool.not_true, Bool.false_eq_true, if_false, List.get?_eq_getElem?] at h ⊢
  simp only [List.getElem?_map, h, Option.map_some', sensitiveKeys]

/-- C7 witness: a concrete authorization header with a long secret is
stored as its first 12 characters plus stars. -/
theorem redact_headers_pointwise_witness :
    (redact_headers [(wAuthKey, wSecret)] true).get? 0 =
      some (if toLowerL wAuthKey ∈ [kAuthorization, kXApiKey, kApiKey, kOpenaiApiKey] then
          (if 12 < wSecret.length then (wAuthKey, wSecret.take 12 ++ kStars)
            else (wAuthKey, kStars))
        else (wAuthKey, wSecret)) :=
  redact_headers_pointwise [(wAuthKey, wSecret)] 0 wAuthKey wSecret rfl

theorem ctxLoop_counts (dumps : Json → Str) :
    ∀ (l : List Json) (u a t c : Nat),
      ctxLoop dumps l = some (u, a, t, c) → u + a + t ≤ l.length := by
  intro l
  induction l with
  | nil =>
    intro u a t c h
    unfold ctxLoop at h
    simp only [Option.some.injEq, Prod.mk.injEq] at h
    obtain ⟨hu, ha, ht, hc⟩ := h
    omega
  | cons msg rest ih =>
    intro u a t c h
    unfold ctxLoop at h
    cases msg with
    | obj kvs =>
      dsimp only at h
      cases hm : measure_content dumps ((jlookup kvs kContent).getD Json.null) with
      | none => rw [hm] at h; exact absurd h (by simp)
      | some chars =>
        rw [hm] at h
        cases hr : ctxLoop dumps rest with
        | none => rw [hr] at h; exact absurd h (by simp)
        | some q =>
          obtain ⟨u2, a2, t2, c2⟩ := q
          rw [hr] at h
          simp only [Option.some.injEq, Prod.mk.injEq] at h
          obtain ⟨h1, h2, h3, _⟩ := h
          have hrec := ih u2 a2 t2 c2 hr
          set role := (jlookup kvs kRole).getD (Json.str []) with hrole
          by_cases b1 : jStrEq role kUser = true <;>
            by_cases b2 : jStrEq role kAssistant = true <;>
              by_cases b3 : (jStrEq role kTool || jStrEq role kToolResult) = true <;>
                simp only [b1, b2, Bool.not_true, Bool.not_false, b3, Bool.true_and,
                  Bool.false_and, Bool.and_true, Bool.and_false, if_true, if_false,
                  Bool.true_eq_false, Bool.false_eq_true] at h1 h2 h3 <;>
                  simp only [List.length_cons] <;> omega
    | null => exact absurd h (by simp)
    | bool b => exact absurd h (by simp)
    | num n => exact absurd h (by simp)
    | str s => exact absurd h (by simp)
    | arr xs => exact absurd h (by simp)

/-- C6: the context metrics computed for any messages list and system
prompt satisfy both invariants: the three role counters sum to at most
the message count, and the context depth in characters is at least the
system prompt length. -/
theorem context_metrics_sanity (dumps : Json → Str) (sha : Str → Str)
    (messages : Option (List Json)) (system_prompt : Option Str)
    (prevc : Option Int) (m : ContextMetrics)
    (h : compute_context_metrics dumps sha messages system_prompt prevc = some m) :
    m.user_turn_count + m.assistant_turn_count + m.tool_result_count ≤ m.message_count ∧
    m.system_prompt_length ≤ m.context_depth_chars := by
  unfold compute_context_metrics at h
  dsimp only at h
  cases hl : ctxLoop dumps (messages.getD []) with
  | none => rw [hl] at h; exact absurd h (by simp)
  | some q =>
    obtain ⟨u, a, t, c⟩ := q
    rw [hl] at h
    dsimp only at h
    simp only [Option.some.injEq] at h
    subst h
    refine ⟨?_, ?_⟩
    · exact ctxLoop_counts dumps _ u a t c hl
    · exact Nat.le_add_left _ _

/-- C6 witness: concrete metrics for one user message over a three
character system prompt. -/
theorem context_metrics_sanity_witness :
    wMetrics.user_turn_count + wMetrics.assistant_turn_count +
        wMetrics.tool_result_count ≤ wMetrics.message_count ∧
    wMetrics.system_prompt_length ≤ wMetrics.context_depth_chars :=
  context_metrics_sanity (fun _ => []) (fun _ => []) wMsgs (some wSys) none wMetrics rfl

theorem jlookup_cons (p : Str × Json) (rest : List (Str × Json)) (k : Str) :
    jlookup (p :: rest) k = if p.1 = k then some p.2 else jlookup rest k := by
  unfold jlookup
  by_cases h : p.1 = k
  · rw [List.find?_cons_of_pos _ (by simpa using h), if_pos h]
    rfl
  · rw [List.find?_cons_of_neg _ (by simpa using h), if_neg h]

theorem jlookup_dictSet_self (d : List (Str × Json)) (k : Str) (v : Json) :
    jlookup (dictSet d k v) k = some v := by
  induction d with
  | nil => simp [dictSet, jlookup_cons]
  | cons p rest ih =>
    by_cases h : p.1 = k
    · unfold dictSet
      rw [if_pos h, jlookup_cons, if_pos rfl]
    · unfold dictSet
      rw [if_neg h, jlookup_cons, if_neg h]
      exact ih

theorem jlookup_dictSet_other (d : List (Str × Json)) (k k2 : Str) (v : Json)
    (h : k2 ≠ k) : jlookup (dictSet d k v) k2 = jlookup d k2 := by
  induction d with
  | nil =>
    unfold dictSet
    rw [jlookup_cons, if_neg (fun hc => h hc.symm)]
  | cons p rest ih =>
    by_cases hp : p.1 = k
    · unfold dictSet
      rw [if_pos hp, jlookup_cons, jlookup_cons,
        if_neg (fun hc => h hc.symm), if_neg (fun hc => h (hp ▸ hc).symm)]
    · unfold dictSet
      rw [if_neg hp, jlookup_cons, jlookup_cons]
      by_cases hq : p.1 = k2
      · rw [if_pos hq, if_pos hq]
      · rw [if_neg hq, if_neg hq]
        exact ih

/-- C3 (amended): for every non-empty model and non-null usage, the OpenAI
parser resolves pricing by exact table match first, otherwise by the
FIRST table key in insertion order that is a prefix of the model name
(not the longest); a model matching no key yields a non-null estimate
with zero total cost and an explanatory note. -/
theorem openai_estimate_cost_resolution (m : Str) (u : TokenUsage) (hm : m ≠ []) :
    (∀ p : ℚ × ℚ, priceExact OPENAI_PRICING m = some p →
      OpenAIParser.estimate_cost (some m) (some u) =
        some ⟨((u.input_tokens.getD 0 : Int) : ℚ) / 1000000 * p.1,
              ((u.output_tokens.getD 0 : Int) : ℚ) / 1000000 * p.2,
              ((u.input_tokens.getD 0 : Int) : ℚ) / 1000000 * p.1 +
                ((u.output_tokens.getD 0 : Int) : ℚ) / 1000000 * p.2,
              some m, none⟩) ∧
    (priceExact OPENAI_PRICING m = none →
      (∀ p : ℚ × ℚ, priceFirstPrefix OPENAI_PRICING m = some p →
        OpenAIParser.estimate_cost (some m) (some u) =
          some ⟨((u.input_tokens.getD 0 : Int) : ℚ) / 1000000 * p.1,
                ((u.output_tokens.getD 0 : Int) : ℚ) / 1000000 * p.2,
                ((u.input_tokens.getD 0 : Int) : ℚ) / 1000000 * p.1 +
                  ((u.output_tokens.getD 0 : Int) : ℚ) / 1000000 * p.2,
                some m, none⟩) ∧
      (priceFirstPrefix OPENAI_PRICING m = none →
        OpenAIParser.estimate_cost (some m) (some u) =
          some ⟨0, 0, 0, some m, some kUnknownModelNote⟩)) := by
  have hne : m.isEmpty = false := by
    cases m with
    | nil => exact absurd rfl hm
    | cons c cs => rfl
  refine ⟨?_, fun hex => ⟨?_, ?_⟩⟩
  · intro p hp
    simp [OpenAIParser.estimate_cost, hne, hp]
  · intro p hp
    simp [OpenAIParser.estimate_cost, hne, hex, hp]
  · intro hpre
    simp [OpenAIParser.estimate_cost, hne, hex, hpre]

/-- C3 witness: a model matching no pricing key yields the non-null
zero-total estimate with the explanatory note. -/
theorem openai_estimate_cost_resolution_witness :
    OpenAIParser.estimate_cost (some cMdlUnknown) (some cUsage) =
      some ⟨0, 0, 0, some cMdlUnknown, some kUnknownModelNote⟩ :=
  ((openai_estimate_cost_resolution cMdlUnknown cUsage (by decide)).2 rfl).2 rfl

/-- C3 counterexample: for the model gpt-4o-mini-high (no exact table
entry) the longest prefix key is gpt-4o-mini, but the code charges the
gpt-4o price: with one million input tokens the code computes input
cost 1000000/1000000 * 5/2, not 1000000/1000000 * 3/20 as the
longest-prefix rule of the claim prescribes; moreover the empty string
model (non-null in the claim's sense) returns None instead of a
non-null estimate. -/
theorem openai_estimate_cost_longest_prefix_cex :
    priceExact OPENAI_PRICING cMdl = none ∧
    longestPrefixPricing OPENAI_PRICING cMdl = some ("gpt-4o-mini".data, 3/20, 3/5) ∧
    (OpenAIParser.estimate_cost (some cMdl) (some cUsage)).map CostEstimate.input_cost =
      some (((1000000 : Int) : ℚ) / 1000000 * (5/2)) ∧
    ¬ (((1000000 : Int) : ℚ) / 1000000 * (5/2) =
        ((1000000 : Int) : ℚ) / 1000000 * (3/20)) ∧
    OpenAIParser.estimate_cost (some []) (some cUsage) = none := by
  refine ⟨rfl, rfl, rfl, ?_, rfl⟩
  push_cast
  norm_num

/-- C2 (amended): stream-usage injection triggers exactly when the
provider is OpenAI, the body's stream field is truthy, and
stream_options.include_usage is not already truthy; the forwarded body
is the original with stream_options.include_usage set to true and every
other top-level field unchanged; the original body object stays
unmodified when it carries no stream_options key, but when it already
carries a stream_options object that nested object is shared, so the
original observes the same mutation as the forwarded body. -/
theorem stream_options_injection (body : List (Str × Json)) (provider : Provider) :
    (should_inject_stream_options body provider = some true ↔
      (provider = Provider.openai ∧
        pyTruthy ((jlookup body kStream).getD Json.null) = true ∧
        injectionConditionSpec body)) ∧
    (jlookup body kStreamOptions = none →
      inject_stream_options body =
        some (dictSet body kStreamOptions (Json.obj [(kIncludeUsage, Json.bool true)]),
              body)) ∧
    (∀ so, jlookup body kStreamOptions = some (Json.obj so) →
      inject_stream_options body =
        some (dictSet body kStreamOptions (Json.obj (dictSet so kIncludeUsage (Json.bool true))),
              dictSet body kStreamOptions (Json.obj (dictSet so kIncludeUsage (Json.bool true))))) ∧
    (∀ k v, k ≠ kStreamOptions →
      jlookup (dictSet body kStreamOptions v) k = jlookup body k) ∧
    (∀ v, jlookup (dictSet body kStreamOptions v) kStreamOptions = some v) := by
  refine ⟨?_, ?_, ?_, fun k v hk => jlookup_dictSet_other body kStreamOptions k v hk,
    fun v => jlookup_dictSet_self body kStreamOptions v⟩
  · unfold should_inject_stream_options injectionConditionSpec
    by_cases hp : provider = Provider.openai
    · subst hp
      rw [if_neg (fun hh => hh rfl)]
      by_cases hstream : pyTruthy ((jlookup body kStream).getD Json.null) = true
      · rw [hstream]
        rw [if_neg (by simp)]
        cases hso : jlookup body kStreamOptions with
        | none => simp [hstream]
        | some j =>
          cases j with
          | obj so => simp [hstream, Bool.not_eq_true']
          | null => simp [hstream]
          | bool b => simp [hstream]
          | num n => simp [hstream]
          | str s => simp [hstream]
          | arr xs => simp [hstream]
      · have hf : pyTruthy ((jlookup body kStream).getD Json.null) = false :=
          eq_false_of_ne_true hstream
        rw [hf]
        simp [hf]
    · rw [if_pos hp]
      simp [hp]
  · intro hnone
    unfold inject_stream_options
    rw [hnone]
  · intro so hso
    unfold inject_stream_options
    rw [hso]

/-- C2 witness: a body with stream true and no stream_options gets the
forwarded body with include_usage injected while the original body is
returned untouched. -/
theorem stream_options_injection_witness :
    inject_stream_options cBodyPlain =
      some (dictSet cBodyPlain kStreamOptions (Json.obj [(kIncludeUsage, Json.bool true)]),
            cBodyPlain) :=
  (stream_options_injection cBodyPlain Provider.openai).2.1 rfl

/-- C2 counterexample: injection triggers for stream equal to the number
1, which is truthy but not the boolean true; and for a body already
carrying a stream_options object the original body observed after the
call equals the mutated body, its stream_options having gained
include_usage, so the original client-visible object is NOT left
unmodified. -/
theorem stream_options_injection_cex :
    should_inject_stream_options cBodyStreamNum Provider.openai = some true ∧
    jlookup cBodyStreamNum kStream = some (Json.num 1) ∧
    (Json.num 1 = Json.bool true → False) ∧
    inject_stream_options cBodyShared = some (cBodySharedAfter, cBodySharedAfter) ∧
    jlookup cBodyShared kStreamOptions = some (Json.obj []) ∧
    jlookup cBodySharedAfter kStreamOptions =
      some (Json.obj [(kIncludeUsage, Json.bool true)]) := by
  refine ⟨rfl, rfl, fun h => Json.noConfusion h, rfl, rfl, rfl⟩

theorem update_delta_eq (i prev : Interaction) :
    update_new_messages_delta i prev =
      { i with context_metrics := (update_new_messages_delta i prev).context_metrics } := by
  unfold update_new_messages_delta
  split
  · split <;> rfl
  all_goals rfl

theorem update_delta_preserves (i prev : Interaction) :
    (update_new_messages_delta i prev).id = i.id ∧
    (update_new_messages_delta i prev).session_id = i.session_id ∧
    (update_new_messages_delta i prev).status_code = i.status_code ∧
    (update_new_messages_delta i prev).error = i.error ∧
    (update_new_messages_delta i prev).total_latency_ms = i.total_latency_ms ∧
    (update_new_messages_delta i prev).conversation_id = i.conversation_id ∧
    (update_new_messages_delta i prev).parent_interaction_id = i.parent_interaction_id ∧
    (update_new_messages_delta i prev).turn_number = i.turn_number := by
  rw [update_delta_eq]
  exact ⟨rfl, rfl, rfl, rfl, rfl, rfl, rfl, rfl⟩

theorem resolve_threading_preserves (store : List Interaction) (fresh : Str)
    (i : Interaction) :
    (resolve_threading store fresh i).id = i.id ∧
    (resolve_threading store fresh i).error = i.error ∧
    (resolve_threading store fresh i).status_code = i.status_code ∧
    (resolve_threading store fresh i).total_latency_ms = i.total_latency_ms := by
  unfold resolve_threading globalFallback linkToPrev freshThread
  split
  · split
    · simp [update_delta_preserves]
    · exact ⟨rfl, rfl, rfl, rfl⟩
  · split
    · split
      · split
        · simp [update_delta_preserves]
        · exact ⟨rfl, rfl, rfl, rfl⟩
      · split
        · split
          · simp [update_delta_preserves]
          · exact ⟨rfl, rfl, rfl, rfl⟩
        · exact ⟨rfl, rfl, rfl, rfl⟩
    · split
      · simp [update_delta_preserves]
      · exact ⟨rfl, rfl, rfl, rfl⟩

/-- C8 (amended): when the upstream connection fails, handle returns 502
with the error text in a JSON body, and the interaction reaching the
store keeps a non-null error, a null status code, and a non-null total
latency; a timeout raised before the response is received behaves the
same with 504; but a timeout raised while reading the body (after
headers) returns 504 with the upstream (non-null) status code
persisted. -/
theorem upstream_failure_handling (i0 : Interaction) (elapsed : ℚ) (msg : Str)
    (store : List Interaction) (fresh : Str) (h0 : i0.status_code = none) :
    ((handle_upstream i0 elapsed (UpstreamOutcome.connectError msg)).2.status = 502 ∧
     (handle_upstream i0 elapsed (UpstreamOutcome.connectError msg)).2.errorBody =
       some [(kError, Json.str msg)] ∧
     (resolve_threading store fresh
        (handle_upstream i0 elapsed (UpstreamOutcome.connectError msg)).1) ∈
       save store fresh (handle_upstream i0 elapsed (UpstreamOutcome.connectError msg)).1 ∧
     (resolve_threading store fresh
        (handle_upstream i0 elapsed (UpstreamOutcome.connectError msg)).1).error =
       some (kConnErrPrefix ++ msg) ∧
     (resolve_threading store fresh
        (handle_upstream i0 elapsed (UpstreamOutcome.connectError msg)).1).status_code = none ∧
     (resolve_threading store fresh
        (handle_upstream i0 elapsed (UpstreamOutcome.connectError msg)).1).total_latency_ms =
       some elapsed) ∧
    ((handle_upstream i0 elapsed (UpstreamOutcome.sendTimeout msg)).2.status = 504 ∧
     (handle_upstream i0 elapsed (UpstreamOutcome.sendTimeout msg)).2.errorBody =
       some [(kError, Json.str msg)] ∧
     (resolve_threading store fresh
        (handle_upstream i0 elapsed (UpstreamOutcome.sendTimeout msg)).1).error =
       some (kTimeoutPrefix ++ msg) ∧
     (resolve_threading store fresh
        (handle_upstream i0 elapsed (UpstreamOutcome.sendTimeout msg)).1).status_code = none ∧
     (resolve_threading store fresh
        (handle_upstream i0 elapsed (UpstreamOutcome.sendTimeout msg)).1).total_latency_ms =
       some elapsed) := by
  have hc := resolve_threading_preserves store fresh
    (handle_upstream i0 elapsed (UpstreamOutcome.connectError msg)).1
  have ht := resolve_threading_preserves store fresh
    (handle_upstream i0 elapsed (UpstreamOutcome.sendTimeout msg)).1
  refine ⟨⟨rfl, rfl, ?_, ?_, ?_, ?_⟩, rfl, rfl, ?_, ?_, ?_⟩
  · exact List.mem_cons_self _ _
  · rw [hc.2.1]
    rfl
  · rw [hc.2.2.1]
    exact h0
  · rw [hc.2.2.2]
    rfl
  · rw [ht.2.1]
    rfl
  · rw [ht.2.2.1]
    exact h0
  · rw [ht.2.2.2]
    rfl

/-- C8 witness: a concrete refused connection yields 502 and the
persisted interaction has the error set, a null status code and the
measured latency. -/
theorem upstream_failure_handling_witness :
    ((handle_upstream wInteraction 5 (UpstreamOutcome.connectError cConnMsg)).2.status = 502 ∧
     (handle_upstream wInteraction 5 (UpstreamOutcome.connectError cConnMsg)).2.errorBody =
       some [(kError, Json.str cConnMsg)] ∧
     (resolve_threading [] wFresh
        (handle_upstream wInteraction 5 (UpstreamOutcome.connectError cConnMsg)).1) ∈
       save [] wFresh (handle_upstream wInteraction 5 (UpstreamOutcome.connectError cConnMsg)).1 ∧
     (resolve_threading [] wFresh
        (handle_upstream wInteraction 5 (UpstreamOutcome.connectError cConnMsg)).1).error =
       some (kConnErrPrefix ++ cConnMsg) ∧
     (resolve_threading [] wFresh
        (handle_upstream wInteraction 5 (UpstreamOutcome.connectError cConnMsg)).1).status_code =
       none ∧
     (resolve_threading [] wFresh
        (handle_upstream wInteraction 5 (UpstreamOutcome.connectError cConnMsg)).1).total_latency_ms =
       some 5) ∧
    ((handle_upstream wInteraction 5 (UpstreamOutcome.sendTimeout cConnMsg)).2.status = 504 ∧
     (handle_upstream wInteraction 5 (UpstreamOutcome.sendTimeout cConnMsg)).2.errorBody =
       some [(kError, Json.str cConnMsg)] ∧
     (resolve_threading [] wFresh
        (handle_upstream wInteraction 5 (UpstreamOutcome.sendTimeout cConnMsg)).1).error =
       some (kTimeoutPrefix ++ cConnMsg) ∧
     (resolve_threading [] wFresh
        (handle_upstream wInteraction 5 (UpstreamOutcome.sendTimeout cConnMsg)).1).status_code =
       none ∧
     (resolve_threading [] wFresh
        (handle_upstream wInteraction 5 (UpstreamOutcome.sendTimeout cConnMsg)).1).total_latency_ms =
       some 5) :=
  upstream_failure_handling wInteraction 5 cConnMsg [] wFresh rfl

/-- C8 counterexample: a timeout raised while reading the upstream body
(after the response headers arrived) is caught by the same except
clause: the client still gets 504, but the persisted interaction keeps
the upstream status code 200, not null as the claim states. -/
theorem upstream_read_timeout_cex :
    (handle_upstream wInteraction 5 (UpstreamOutcome.ok 200 (ReadOutcome.readTimeout cReadMsg))).2.status =
      504 ∧
    (handle_upstream wInteraction 5 (UpstreamOutcome.ok 200 (ReadOutcome.readTimeout cReadMsg))).1.error =
      some (kTimeoutPrefix ++ cReadMsg) ∧
    (handle_upstream wInteraction 5 (UpstreamOutcome.ok 200 (ReadOutcome.readTimeout cReadMsg))).1.status_code =
      some 200 := ⟨rfl, rfl, rfl⟩

theorem mem_store_of_get_conversation_last (store : List Interaction) (cid : Str)
    (prev : Interaction) (h : (get_conversation store cid).getLast? = some prev) :
    prev ∈ store ∧ prev.conversation_id = some cid := by
  have hm := mem_of_getLast?_eq _ _ h
  unfold get_conversation at hm
  rw [mem_sortByL] at hm
  have hf := List.mem_filter.mp hm
  exact ⟨hf.1, of_decide_eq_true hf.2⟩

theorem mem_store_of_recent (store : List Interaction) (sid : Str) (limit : Nat)
    (prev : Interaction) (h : prev ∈ get_recent_in_session store sid limit) :
    prev ∈ store := by
  unfold get_recent_in_session at h
  have h2 := List.take_subset _ _ h
  rw [mem_sortByL] at h2
  exact (List.mem_filter.mp h2).1

theorem mem_store_of_listN (store : List Interaction) (limit : Nat)
    (prev : Interaction) (h : prev ∈ list_interactions store limit) : prev ∈ store := by
  unfold list_interactions at h
  have h2 := List.take_subset _ _ h
  exact (mem_sortByL _ _ _).mp h2

theorem pyOrOne_of_pos (n : Nat) (h : 1 ≤ n) : pyOrOne (some n) = n := by
  unfold pyOrOne
  dsimp only
  rw [if_neg]
  omega

theorem pyOrFresh_of_ne (c fresh : Str) (h : c ≠ []) :
    pyOrFresh (some c) fresh = c := by
  unfold pyOrFresh
  dsimp only
  rw [if_neg]
  rw [List.isEmpty_eq_false.mpr h]
  exact Bool.false_ne_true

theorem linkToPrev_fields (fresh : Str) (i prev : Interaction) :
    (linkToPrev fresh i prev).conversation_id =
      some (pyOrFresh prev.conversation_id fresh) ∧
    (linkToPrev fresh i prev).parent_interaction_id = some prev.id ∧
    (linkToPrev fresh i prev).turn_number = some (pyOrOne prev.turn_number + 1) := by
  unfold linkToPrev
  simp [update_delta_preserves]

theorem WFOne_mono (store : List Interaction) (x j : Interaction)
    (h : WFOne store j) : WFOne (x :: store) j := by
  obtain ⟨a, b, c⟩ := h
  refine ⟨a, b, ?_⟩
  intro pid hpid
  obtain ⟨p, hm, rest⟩ := c pid hpid
  exact ⟨p, List.mem_cons_of_mem _ hm, rest⟩

theorem freshThread_wf (store : List Interaction) (fresh : Str) (i : Interaction)
    (hfresh : fresh ≠ []) (hpar : i.parent_interaction_id = none) :
    WFOne store (freshThread fresh i) := by
  refine ⟨⟨fresh, rfl, hfresh⟩, ⟨1, rfl, Nat.le_refl 1⟩, ?_⟩
  intro pid hpid
  have hpid2 : i.parent_interaction_id = some pid := hpid
  rw [hpar] at hpid2
  cases hpid2

theorem linkToPrev_wf (store : List Interaction) (fresh : Str) (i prev : Interaction)
    (hwf : WFStore store) (hmem : prev ∈ store) :
    WFOne store (linkToPrev fresh i prev) := by
  obtain ⟨⟨pc, hpc, hpcne⟩, ⟨pn, hpn, hpn1⟩, -⟩ := hwf prev hmem
  have hf := linkToPrev_fields fresh i prev
  have hconv2 : (linkToPrev fresh i prev).conversation_id = some pc := by
    rw [hf.1, hpc, pyOrFresh_of_ne pc fresh hpcne]
  refine ⟨⟨pc, hconv2, hpcne⟩,
    ⟨pyOrOne prev.turn_number + 1, hf.2.2, by omega⟩, ?_⟩
  intro pid hpid
  rw [hf.2.1, Option.some.injEq] at hpid
  refine ⟨prev, hmem, hpid, ?_, pn, hpn, ?_⟩
  · rw [hconv2, hpc]
  · rw [hf.2.2, hpn, pyOrOne_of_pos pn hpn1]

theorem globalFallback_wf (store : List Interaction) (fresh : Str) (i : Interaction)
    (hwf : WFStore store) (hfresh : fresh ≠ [])
    (hpar : i.parent_interaction_id = none) :
    WFOne store (globalFallback store fresh i) := by
  unfold globalFallback
  split
  · next prev hfind =>
    exact linkToPrev_wf store fresh i prev hwf
      (mem_store_of_listN store 10 prev (List.mem_of_find?_eq_some hfind))
  · next hfind => exact freshThread_wf store fresh i hfresh hpar

theorem resolve_threading_wf (store : List Interaction) (fresh : Str) (i : Interaction)
    (hwf : WFStore store) (hpar : i.parent_interaction_id = none)
    (hconv : ∀ c, i.conversation_id = some c → c ≠ []) (hfresh : fresh ≠ []) :
    WFOne store (resolve_threading store fresh i) := by
  unfold resolve_threading
  split
  · next cid hcid =>
    split
    · next prev hlast =>
      obtain ⟨hpm, hpcid⟩ := mem_store_of_get_conversation_last store cid prev hlast
      obtain ⟨-, ⟨pn, hpn, hpn1⟩, -⟩ := hwf prev hpm
      refine ⟨⟨cid, ?_, hconv cid hcid⟩,
        ⟨pyOrOne prev.turn_number + 1, ?_, by omega⟩, ?_⟩
      · simp only [update_delta_preserves]
        exact hcid
      · simp only [update_delta_preserves]
      · intro pid hpid
        simp only [update_delta_preserves, Option.some.injEq] at hpid
        refine ⟨prev, hpm, hpid, ?_, pn, hpn, ?_⟩
        · simp only [update_delta_preserves]
          rw [hpcid, hcid]
        · simp only [update_delta_preserves]
          rw [hpn, pyOrOne_of_pos pn hpn1]
    · next hlast =>
      refine ⟨⟨cid, hcid, hconv cid hcid⟩, ⟨1, rfl, Nat.le_refl 1⟩, ?_⟩
      intro pid hpid
      have hpid2 : i.parent_interaction_id = some pid := hpid
      rw [hpar] at hpid2
      cases hpid2
  · next hcid =>
    split
    · next sid hsid =>
      split
      · exact globalFallback_wf store fresh i hwf hfresh hpar
      · split
        · next prev hhead =>
          split
          · next hcont =>
            exact linkToPrev_wf store fresh i prev hwf
              (mem_store_of_recent store sid 1 prev (mem_of_head?_eq _ _ hhead))
          · next hcont => exact freshThread_wf store fresh i hfresh hpar
        · next hhead => exact freshThread_wf store fresh i hfresh hpar
    · next hsid => exact globalFallback_wf store fresh i hwf hfresh hpar

/-- C5: saving any interaction that arrives with no parent link into a
well-formed store (through any of the three threading paths: explicit
conversation id, session-based inference, or the global fallback)
leaves the store well formed: every stored interaction with a non-null
parent_interaction_id has its parent in the store, with the same
conversation_id and with turn_number exactly one less. -/
theorem threading_wf_preserved (store : List Interaction) (i : Interaction)
    (fresh : Str) (hwf : WFStore store) (hpar : i.parent_interaction_id = none)
    (hconv : ∀ c, i.conversation_id = some c → c ≠ []) (hfresh : fresh ≠ [])
    (hid : ∀ j ∈ store, j.id ≠ i.id) :
    WFStore (save store fresh i) := by
  have h2 := resolve_threading_wf store fresh i hwf hpar hconv hfresh
  have hid2 : (resolve_threading store fresh i).id = i.id :=
    (resolve_threading_preserves store fresh i).1
  have hfilter :
      store.filter (fun j => !decide (j.id = (resolve_threading store fresh i).id)) =
        store := by
    apply List.filter_eq_self.mpr
    intro j hj
    rw [hid2]
    simp [hid j hj]
  have hsave : save store fresh i = resolve_threading store fresh i :: store := by
    unfold save upsert
    rw [hfilter]
  rw [hsave]
  intro j hj
  rcases List.mem_cons.mp hj with rfl | hjs
  · exact WFOne_mono store _ _ h2
  · exact WFOne_mono store _ _ (hwf j hjs)

/-- C5 witness: saving a fresh interaction into the empty store yields a
well-formed store. -/
theorem threading_wf_preserved_witness : WFStore (save [] wFresh wInteraction) :=
  threading_wf_preserved [] wInteraction wFresh
    (fun j hj => absurd hj (List.not_mem_nil j)) rfl
    (fun c hc => Option.noConfusion hc) (by decide)
    (fun j hj => absurd hj (List.not_mem_nil j))

end AgentIntercept
